import Mathlib

/-!
# Verification of `reference.cpp` (`RefFind` / `RefFindInRange`)

A shallow embedding of the reference-finding engine in `src/dbg/reference.cpp`:
the functions `RefFind` (scope resolution, per-scope dispatch, progress
aggregation, final reporting) and `RefFindInRange` (memory snapshot, linear
instruction-decode sweep, per-instruction predicate callback, fine-grained
progress).

Modelling choices:
* `duint` is modelled as `Nat`; the one place where unsigned wraparound can
  matter (the `Size - (Address - regionBase)` computation, reference.cpp:42)
  uses explicit arithmetic modulo `2 ^ 64` (`duintSub`).
* External collaborators (`MemFindBaseAddr`, `ModNameFromAddr`,
  `ModInfoFromAddr`, `ModGetList`, `MemRead`, the Capstone disassembler) are
  parameters collected in an `Env` record.
* The fire-and-forget GUI/diagnostic collaborators
  (`GuiReferenceSetCurrentTaskProgress`, `GuiReferenceSetProgress`,
  `GuiReferenceReloadData`, `dprintf`) are modelled as an `Event` trace that
  the functions return alongside their result; `MemRead` attempts are also
  recorded in the trace.
* The caller-supplied predicate `CBREF` receives the decoded-instruction
  information (`none` for the one-time initialization call at
  reference.cpp:199-200) and the caller's opaque state, and returns its match
  decision plus the updated caller state.  The engine owns `refcount`.
* The `for` loop of `RefFindInRange` is written with explicit fuel, since the
  C++ loop diverges if the disassembler ever reports a zero instruction size;
  `none` at the top level models that divergence.  `RefFindInRange` passes
  fuel `scanSize`, which suffices whenever every decoded length is at least 1
  (proved below for claim C9/C10).
* The float percentage computations
  (`(int)floor(((float)i / (float)scanSize) * 100.0f)`, reference.cpp:210, and
  the all-modules total percent, reference.cpp:160-163) are modelled by their
  exact real-arithmetic values, which are the natural-division expressions
  `i * 100 / scanSize` and `(100 * i + percent) / modCount`; the lemmas
  `pct_eq_floor` and `totalPercent_eq_floor` prove these equal the
  rational-arithmetic `⌊·⌋` forms.
-/

/-- `duint` values live below `2 ^ 64` (x64 build). -/
def duintW : Nat := 2 ^ 64

/-- Unsigned 64-bit subtraction `a - b` with wraparound, as C computes it. -/
def duintSub (a b : Nat) : Nat := (a + (duintW - b % duintW)) % duintW

/-- `#define MAX_DISASM_BUFFER 16` (the decoder lookahead bound). -/
def MAX_DISASM_BUFFER : Nat := 16

/-- A loaded module: `MODINFO { base, size, name }` (only the fields
`RefFind` reads). -/
structure MODINFO where
  base : Nat
  size : Nat
  name : String
deriving DecidableEq

/-- `REFINFO`: the shared search context.  `refcount` is the cumulative match
count, `userinfo` the caller's opaque state, `name` the display label. -/
structure RefState (U : Type) where
  refcount : Nat
  userinfo : U
  name : String
deriving DecidableEq

/-- One decoded instruction as the engine sees it: its byte length
(`cp.Size()`) and the information handed to the predicate
(`&cp` / `BASIC_INSTRUCTION_INFO`). -/
structure Instr (Info : Type) where
  size : Nat
  info : Info
deriving DecidableEq

/-- The caller-supplied predicate `CBREF`.  It receives the decoded
instruction information (`none` for the initialization call
`Callback(0, 0, &refInfo)`) and the caller state, and returns the match
decision together with the updated caller state. -/
def CBREF (U Info : Type) : Type := Option Info → U → Bool × U

/-- Observable side effects of one operation, in order of occurrence. -/
inductive Event where
  /-- `dprintf("Invalid memory page 0x%p\n", Address)` -/
  | diagInvalidPage (addr : Nat)
  /-- `dprintf("Couldn't locate module for 0x%p\n", Address)` -/
  | diagNoModule (addr : Nat)
  /-- `dprintf("Couldn't get module list")` -/
  | diagNoModuleList
  /-- `dprintf("Error reading memory in reference search\n")` -/
  | diagReadError
  /-- A `MemRead(addr, ..., size)` attempt on the debuggee. -/
  | memRead (addr size : Nat)
  /-- `GuiReferenceSetCurrentTaskProgress(percent, label)` -/
  | taskProgress (percent : Nat) (label : String)
  /-- `GuiReferenceSetProgress(percent)` -/
  | overallProgress (percent : Nat)
  /-- `GuiReferenceReloadData()` -/
  | reloadData
deriving DecidableEq

/-- The external collaborators consumed by `RefFind`/`RefFindInRange`.
`memFindBaseAddr` returns `(base, size)` with `base = 0` meaning "not found"
(matching the `!regionBase || !regionSize` check); `disasm` receives the
current address, the snapshot, the offset into it (the C++ passes the pointer
`data() + i`), and the lookahead bound. -/
structure Env (U Info : Type) where
  memFindBaseAddr : Nat → Nat × Nat
  modNameFromAddr : Nat → Option String
  modInfoFromAddr : Nat → Option (Nat × Nat)
  modGetList : List MODINFO
  memRead : Nat → Nat → Option (List Nat)
  disasm : Nat → List Nat → Nat → Nat → Option (Instr Info)

/-- The decode sweep of `RefFindInRange` (reference.cpp:203-236):

```
for(duint i = 0; i < scanSize;)
{
    if((i % 0x1000) == 0)
    {
        int percent = (int)floor(((float)i / (float)scanSize) * 100.0f);
        cbUpdateProgress(percent);
    }
    int disasmMaxSize = min(MAX_DISASM_BUFFER, (int)(scanSize - i));
    int disasmLen = 1;
    if(cp.Disassemble(scanStart, data() + i, disasmMaxSize))
    {
        BASIC_INSTRUCTION_INFO basicinfo;
        fillbasicinfo(&cp, &basicinfo);
        if(Callback(&cp, &basicinfo, &refInfo))
            refInfo.refcount++;
        disasmLen = cp.Size();
    }
    scanStart += disasmLen;
    i += disasmLen;
}
```

The first `Nat` argument is fuel; `none` models the divergence the C++ loop
exhibits when the decoder reports length 0 forever. -/
def sweep (env : Env U Info) (cb : CBREF U Info) (sink : Nat → List Event)
    (scanSize : Nat) (data : List Nat) :
    Nat → Nat → Nat → RefState U → Option (RefState U × List Event)
  | 0, _, i, st => if i < scanSize then none else some (st, [])
  | fuel + 1, scanStart, i, st =>
    if i < scanSize then
      let evs := if i % 4096 = 0 then sink (i * 100 / scanSize) else []
      match env.disasm scanStart data i (min MAX_DISASM_BUFFER (scanSize - i)) with
      | some instr =>
        let res := cb (some instr.info) st.userinfo
        let st' : RefState U :=
          ⟨if res.1 then st.refcount + 1 else st.refcount, res.2, st.name⟩
        (sweep env cb sink scanSize data fuel (scanStart + instr.size)
            (i + instr.size) st').map (fun r => (r.1, evs ++ r.2))
      | none =>
        (sweep env cb sink scanSize data fuel (scanStart + 1) (i + 1) st).map
          (fun r => (r.1, evs ++ r.2))
    else some (st, [])

/-- `RefFindInRange` (reference.cpp:186-239): snapshot the range, run the
optional initialization callback, sweep, report 100%, and return the
(cumulative) `refInfo.refcount`.  On a failed `MemRead` it returns 0 with the
state untouched. -/
def RefFindInRange (env : Env U Info) (cb : CBREF U Info) (Silent : Bool)
    (scanStart scanSize : Nat) (initCallBack : Bool) (sink : Nat → List Event)
    (refInfo : RefState U) : Option (Nat × RefState U × List Event) :=
  match env.memRead scanStart scanSize with
  | none =>
    some (0, refInfo,
      Event.memRead scanStart scanSize ::
        (if Silent then [] else [Event.diagReadError]))
  | some data =>
    let refInfo1 : RefState U :=
      if initCallBack then
        ⟨refInfo.refcount, (cb none refInfo.userinfo).2, refInfo.name⟩
      else refInfo
    match sweep env cb sink scanSize data scanSize scanStart 0 refInfo1 with
    | none => none
    | some (st, evs) =>
      some (st.refcount, st, Event.memRead scanStart scanSize :: (evs ++ sink 100))

/-- The effective region-scope scan range (reference.cpp:35-47):

```
scanStart = regionBase;
scanSize  = regionSize;
if(Size)
{
    duint maxsize = Size - (Address - regionBase);
    scanStart = Address;
    scanSize  = min(Size, maxsize);
}
```

Note the source computes `maxsize` from `Size`, not from `regionSize`. -/
def regionScanRange (Address Size regionBase regionSize : Nat) : Nat × Nat :=
  if Size ≠ 0 then
    (Address, min Size (duintSub Size (duintSub Address regionBase)))
  else
    (regionBase, regionSize)

/-- The region-scope progress lambda (reference.cpp:64-68). -/
def regionSink : Nat → List Event := fun percent =>
  [Event.taskProgress percent "Region Search", Event.overallProgress percent]

/-- The module-scope progress lambda (reference.cpp:111-115). -/
def moduleSink : Nat → List Event := fun percent =>
  [Event.taskProgress percent "Module Search", Event.overallProgress percent]

/-- The all-modules progress lambda (reference.cpp:158-170):

```
float fPercent = (float)percent / 100.f;
float fTotalPercent = ((float)i + fPercent) / (float)modList.size();
int totalPercent = (int)floor(fTotalPercent * 100.f);
GuiReferenceSetCurrentTaskProgress(percent, modList[i].name);
GuiReferenceSetProgress(totalPercent);
```

`totalPercent` is written as its exact real-arithmetic value
`(100 * i + percent) / modList.length` (natural division); the lemma
`totalPercent_eq_floor` proves this equals
`⌊((i + percent / 100) / modList.length) * 100⌋₊` over `ℚ`. -/
def allModulesSink (ms : List MODINFO) (i : Nat) : Nat → List Event :=
  fun percent =>
    [Event.taskProgress percent (ms.getD i ⟨0, 0, ""⟩).name,
     Event.overallProgress ((100 * i + percent) / ms.length)]

/-- The region label (reference.cpp:49-53): `"<Name> (Region <module|addr>)"`.
(`%p` hex formatting is modelled by decimal `toString`; no claim depends on
the digits.) -/
def regionFullName (env : Env U Info) (Name : String) (scanStart : Nat) :
    String :=
  match env.modNameFromAddr scanStart with
  | some m => Name ++ " (Region " ++ m ++ ")"
  | none => Name ++ " (Region " ++ toString scanStart ++ ")"

/-- The module label (reference.cpp:97-101): `"<Name> (<module|addr>)"`. -/
def moduleFullName (env : Env U Info) (Name : String) (scanStart : Nat) :
    String :=
  match env.modNameFromAddr scanStart with
  | some m => Name ++ " (" ++ m ++ ")"
  | none => Name ++ " (" ++ toString scanStart ++ ")"

/-- The `ALL_MODULES` per-module loop of `RefFind` (reference.cpp:150-177)
together with the common epilogue (reference.cpp:180-182), which the loop
reaches when it completes:

```
for(duint i = 0; i < modList.size(); i++)
{
    scanStart = modList[i].base;
    scanSize  = modList[i].size;
    if(i != 0) initCallBack = false;
    refFindInRangeRet = RefFindInRange(..., initCallBack, <allModulesSink>);
    if(!refFindInRangeRet)
        return refFindInRangeRet;
    GuiReferenceReloadData();
}
...
GuiReferenceSetProgress(100);
GuiReferenceReloadData();
return refInfo.refcount;
``` -/
def refFindAllModLoop (env : Env U Info) (cb : CBREF U Info) (Silent : Bool)
    (msAll : List MODINFO) :
    List MODINFO → Nat → RefState U → Option (Nat × List Event)
  | [], _, st => some (st.refcount, [Event.overallProgress 100, Event.reloadData])
  | m :: rest, i, st =>
    match RefFindInRange env cb Silent m.base m.size (i == 0)
        (allModulesSink msAll i) st with
    | none => none
    | some (ret, st', evs) =>
      if ret = 0 then some (ret, evs)
      else
        (refFindAllModLoop env cb Silent msAll rest (i + 1) st').map
          (fun r => (r.1, evs ++ Event.reloadData :: r.2))

/-- The scan scope `REFFINDTYPE`. -/
inductive REFFINDTYPE where
  | CURRENT_REGION
  | CURRENT_MODULE
  | ALL_MODULES
deriving DecidableEq

/-- `RefFind` (reference.cpp:12-183).  Returns the `int` result together with
the event trace; `none` models divergence of a sweep. -/
def RefFind (env : Env U Info) (cb : CBREF U Info) (Address Size : Nat)
    (UserData : U) (Silent : Bool) (Name : String) (t : REFFINDTYPE) :
    Option (Nat × List Event) :=
  match t with
  | REFFINDTYPE.CURRENT_REGION =>
    let region := env.memFindBaseAddr Address
    if region.1 = 0 ∨ region.2 = 0 then
      some (0, if Silent then [] else [Event.diagInvalidPage Address])
    else
      let range := regionScanRange Address Size region.1 region.2
      let refInfo : RefState U :=
        ⟨0, UserData, regionFullName env Name range.1⟩
      match RefFindInRange env cb Silent range.1 range.2 true regionSink
          refInfo with
      | none => none
      | some (ret, st, evs) =>
        -- GuiReferenceReloadData() at reference.cpp:70 precedes the zero check
        let evs1 := evs ++ [Event.reloadData]
        if ret = 0 then some (ret, evs1)
        else
          -- reference.cpp:75: refInfo.refcount += refFindInRangeRet
          some (st.refcount + ret,
            evs1 ++ [Event.overallProgress 100, Event.reloadData])
  | REFFINDTYPE.CURRENT_MODULE =>
    match env.modInfoFromAddr Address with
    | none =>
      some (0, if Silent then [] else [Event.diagNoModule Address])
    | some modinfo =>
      let refInfo : RefState U :=
        ⟨0, UserData, moduleFullName env Name modinfo.1⟩
      match RefFindInRange env cb Silent modinfo.1 modinfo.2 true moduleSink
          refInfo with
      | none => none
      | some (ret, st, evs) =>
        -- the zero check at reference.cpp:118 precedes the reload at :121
        if ret = 0 then some (ret, evs)
        else
          some (st.refcount,
            evs ++ [Event.reloadData, Event.overallProgress 100,
              Event.reloadData])
  | REFFINDTYPE.ALL_MODULES =>
    let modList := env.modGetList
    if modList.length = 0 then
      some (0, if Silent then [] else [Event.diagNoModuleList])
    else
      refFindAllModLoop env cb Silent modList modList 0
        ⟨0, UserData, "All Modules (" ++ Name ++ ")"⟩

/-! ## Observation functions

These are not part of the source; they project out, by the same control flow
as `sweep` (which is driven solely by `env.disasm`), the quantities the
claims talk about: `sweepSched` the list of fine-grained percentages the loop
hands to its progress sink, and `sweepCount` the number of predicate matches
together with the final caller state.  The lemma `sweep_eq` proves that
`sweep` is exactly assembled from them. -/

/-- The fine-grained progress schedule of the sweep: the percentage reported
at each visited offset divisible by 4096, in visit order. -/
def sweepSched (env : Env U Info) (scanSize : Nat) (data : List Nat) :
    Nat → Nat → Nat → List Nat
  | 0, _, _ => []
  | fuel + 1, scanStart, i =>
    if i < scanSize then
      (if i % 4096 = 0 then [i * 100 / scanSize] else []) ++
        match env.disasm scanStart data i (min MAX_DISASM_BUFFER (scanSize - i)) with
        | some instr =>
          sweepSched env scanSize data fuel (scanStart + instr.size) (i + instr.size)
        | none => sweepSched env scanSize data fuel (scanStart + 1) (i + 1)
    else []

/-- The number of predicate matches of the sweep (the increments applied to
`refInfo.refcount`) and the final caller state; `none` when the fuel runs
out. -/
def sweepCount (env : Env U Info) (cb : CBREF U Info) (scanSize : Nat)
    (data : List Nat) : Nat → Nat → Nat → U → Option (Nat × U)
  | 0, _, i, u => if i < scanSize then none else some (0, u)
  | fuel + 1, scanStart, i, u =>
    if i < scanSize then
      match env.disasm scanStart data i (min MAX_DISASM_BUFFER (scanSize - i)) with
      | some instr =>
        let res := cb (some instr.info) u
        (sweepCount env cb scanSize data fuel (scanStart + instr.size)
            (i + instr.size) res.2).map
          (fun p => ((if res.1 then 1 else 0) + p.1, p.2))
      | none => sweepCount env cb scanSize data fuel (scanStart + 1) (i + 1) u
    else some (0, u)

/-- The overall-progress percentages of a trace, in order. -/
def percentsOf (evs : List Event) : List Nat :=
  evs.filterMap fun e =>
    match e with
    | Event.overallProgress p => some p
    | _ => none

/-- The per-module (range-local) match count: the number of instructions in
the module's range for which the predicate returns true, starting the sweep
from caller state `u`.  This is the specification-side quantity the claims
compare the engine's cumulative `refcount` against. -/
def modCount (env : Env U Info) (cb : CBREF U Info) (u : U) (m : MODINFO) :
    Nat :=
  match env.memRead m.base m.size with
  | none => 0
  | some data =>
    match sweepCount env cb m.size data m.size m.base 0 u with
    | none => 0
    | some p => p.1

/-- A canonical progress sink that records exactly the percentage it is
handed (used to state range-local reporting claims). -/
def overallSink : Nat → List Event := fun p => [Event.overallProgress p]

/-! ## Concrete instantiations used by witnesses and counterexamples -/

/-- A predicate that matches every instruction and keeps no state. -/
def cbTrue : CBREF Unit Unit := fun _ u => (true, u)

/-- A predicate that matches no instruction and keeps no state. -/
def cbFalse : CBREF Unit Unit := fun _ u => (false, u)

/-- A collaborator environment where every lookup fails. -/
def baseEnv : Env Unit Unit where
  memFindBaseAddr := fun _ => (0, 0)
  modNameFromAddr := fun _ => none
  modInfoFromAddr := fun _ => none
  modGetList := []
  memRead := fun _ _ => none
  disasm := fun _ _ _ _ => none

/-- One region `[0x1000, 0x1001)` holding a single decodable 1-byte
instruction. -/
def env1 : Env Unit Unit :=
  { baseEnv with
    memFindBaseAddr := fun _ => (0x1000, 1)
    memRead := fun _ _ => some [0x90]
    disasm := fun _ _ _ _ => some ⟨1, ()⟩ }

/-- One region `[0x1000, 0x1010)` (size `0x10`) of undecodable bytes. -/
def env3 : Env Unit Unit :=
  { baseEnv with
    memFindBaseAddr := fun _ => (0x1000, 0x10)
    memRead := fun _ _ => some [] }

/-- Readable memory in which every decode attempt reports a 15-byte
instruction (so the sweep never lands exactly on offset 4096). -/
def env5 : Env Unit Unit :=
  { baseEnv with
    memRead := fun _ _ => some []
    disasm := fun _ _ _ _ => some ⟨15, ()⟩ }

/-- Readable memory of undecodable bytes. -/
def envR : Env Unit Unit :=
  { baseEnv with memRead := fun _ _ => some [] }

/-- Module `a` at `0x1000` (undecodable) and module `b` at `0x2000` (one
decodable matching instruction), listed in that order. -/
def env2AB : Env Unit Unit :=
  { baseEnv with
    modGetList := [⟨0x1000, 1, "a"⟩, ⟨0x2000, 1, "b"⟩]
    memRead := fun _ _ => some [0]
    disasm := fun a _ _ _ => if a = 0x2000 then some ⟨1, ()⟩ else none }

/-- The same modules as `env2AB`, enumerated in the opposite order. -/
def env2BA : Env Unit Unit :=
  { env2AB with modGetList := [⟨0x2000, 1, "b"⟩, ⟨0x1000, 1, "a"⟩] }

/-- Two one-byte modules, each holding one decodable matching instruction. -/
def env2W : Env Unit Unit :=
  { baseEnv with
    modGetList := [⟨0x1000, 1, "a"⟩, ⟨0x2000, 1, "b"⟩]
    memRead := fun _ _ => some [0]
    disasm := fun _ _ _ _ => some ⟨1, ()⟩ }

/-- A region, a module and a module list all at `[0x1000, 0x1001)`, one
undecodable byte (every scan succeeds with zero matches). -/
def env9 : Env Unit Unit :=
  { baseEnv with
    memFindBaseAddr := fun _ => (0x1000, 1)
    modInfoFromAddr := fun _ => some (0x1000, 1)
    modGetList := [⟨0x1000, 1, "m"⟩]
    memRead := fun _ _ => some [0] }

/-- `sweep` in terms of its observations: starting from refcount `r` and
caller state `u`, it terminates exactly when `sweepCount` does, its final
refcount is `r` plus the match count, its final caller state is
`sweepCount`'s, the label is untouched, and its events are the sink applied
to the schedule. -/
theorem sweep_eq (env : Env U Info) (cb : CBREF U Info)
    (sink : Nat → List Event) (scanSize : Nat) (data : List Nat) :
    ∀ (fuel scanStart i : Nat) (r : Nat) (u : U) (nm : String),
      sweep env cb sink scanSize data fuel scanStart i ⟨r, u, nm⟩ =
        (sweepCount env cb scanSize data fuel scanStart i u).map
          (fun p => (⟨r + p.1, p.2, nm⟩,
            ((sweepSched env scanSize data fuel scanStart i).map sink).flatten)) := by
  intro fuel
  induction fuel with
  | zero =>
    intro scanStart i r u nm
    simp only [sweep, sweepCount, sweepSched]
    by_cases h : i < scanSize <;> simp [h]
  | succ fuel ih =>
    intro scanStart i r u nm
    by_cases h : i < scanSize
    · simp only [sweep, sweepCount, sweepSched, h, if_true]
      cases hd : env.disasm scanStart data i (min MAX_DISASM_BUFFER (scanSize - i)) with
      | none =>
        simp only [ih]
        cases hc : sweepCount env cb scanSize data fuel (scanStart + 1) (i + 1) u with
        | none => simp [hc]
        | some p =>
          by_cases hm : i % 4096 = 0 <;> simp [hc, hm]
      | some instr =>
        simp only [ih]
        cases hc : sweepCount env cb scanSize data fuel (scanStart + instr.size)
            (i + instr.size) (cb (some instr.info) u).2 with
        | none => simp [hc]
        | some p =>
          by_cases hb : (cb (some instr.info) u).1 <;>
            by_cases hm : i % 4096 = 0 <;>
              simp [hc, hb, hm, Nat.add_assoc, Nat.add_comm 1 p.1]
    · simp [sweep, sweepCount, sweepSched, h]

/-- `RefFindInRange` on a readable range, in terms of the sweep
observations: its return value and final refcount are the incoming refcount
plus the match count, its trace is the `MemRead` record, the sink applied to
the schedule, and the final `sink 100`. -/
theorem RefFindInRange_eq (env : Env U Info) (cb : CBREF U Info)
    (Silent : Bool) (scanStart scanSize : Nat) (initCallBack : Bool)
    (sink : Nat → List Event) (r : Nat) (u : U) (nm : String)
    (data : List Nat) (hmem : env.memRead scanStart scanSize = some data) :
    RefFindInRange env cb Silent scanStart scanSize initCallBack sink
        ⟨r, u, nm⟩ =
      (sweepCount env cb scanSize data scanSize scanStart 0
          (if initCallBack then (cb none u).2 else u)).map
        (fun p => (r + p.1, ⟨r + p.1, p.2, nm⟩,
          Event.memRead scanStart scanSize ::
            (((sweepSched env scanSize data scanSize scanStart 0).map
                sink).flatten ++ sink 100))) := by
  unfold RefFindInRange
  rw [hmem]
  cases initCallBack with
  | false =>
    simp only [Bool.false_eq_true, if_false]
    rw [sweep_eq]
    cases hc : sweepCount env cb scanSize data scanSize scanStart 0 u with
    | none => simp [hc]
    | some p => simp [hc]
  | true =>
    simp only [if_true]
    rw [sweep_eq]
    cases hc : sweepCount env cb scanSize data scanSize scanStart 0
        (cb none u).2 with
    | none => simp [hc]
    | some p => simp [hc]

theorem percentsOf_append (a b : List Event) :
    percentsOf (a ++ b) = percentsOf a ++ percentsOf b :=
  List.filterMap_append ..

/-- If the sink reports exactly one overall percentage `f p` per call, the
overall percentages of a schedule's trace are the schedule mapped through
`f`. -/
theorem percentsOf_flatten_map (sink : Nat → List Event) (f : Nat → Nat)
    (hsink : ∀ p, percentsOf (sink p) = [f p]) :
    ∀ l : List Nat, percentsOf ((l.map sink).flatten) = l.map f := by
  intro l
  induction l with
  | nil => rfl
  | cons p l ih =>
    simp only [List.map_cons, List.flatten_cons, percentsOf_append, ih, hsink]
    rfl

theorem percentsOf_regionSink (p : Nat) : percentsOf (regionSink p) = [p] := rfl

theorem percentsOf_moduleSink (p : Nat) : percentsOf (moduleSink p) = [p] := rfl

theorem percentsOf_allModulesSink (ms : List MODINFO) (i p : Nat) :
    percentsOf (allModulesSink ms i p) = [(100 * i + p) / ms.length] := rfl

theorem percentsOf_memRead (a s : Nat) (evs : List Event) :
    percentsOf (Event.memRead a s :: evs) = percentsOf evs := rfl

theorem percentsOf_reload (evs : List Event) :
    percentsOf (Event.reloadData :: evs) = percentsOf evs := rfl

/-- The fine-grained percentage `i * 100 / scanSize` is the exact value of
`(int)floor(((float)i / (float)scanSize) * 100.0f)` computed over `ℚ`
(reference.cpp:210). -/
theorem pct_eq_floor (i s : Nat) :
    i * 100 / s = Nat.floor (((i : ℚ) / (s : ℚ)) * 100) := by
  have h : ((i : ℚ) / (s : ℚ)) * 100 = ((i * 100 : ℕ) : ℚ) / ((s : ℕ) : ℚ) := by
    push_cast
    ring
  rw [h, Nat.floor_div_eq_div]

/-- The all-modules overall percentage `(100 * i + p) / n` is the exact value
of `(int)floor((((float)i + percent / 100.f) / (float)n) * 100.f)` computed
over `ℚ` (reference.cpp:160-163). -/
theorem totalPercent_eq_floor (i p n : Nat) :
    (100 * i + p) / n =
      Nat.floor ((((i : ℚ) + (p : ℚ) / 100) / (n : ℚ)) * 100) := by
  have h : (((i : ℚ) + (p : ℚ) / 100) / (n : ℚ)) * 100 =
      ((100 * i + p : ℕ) : ℚ) / ((n : ℕ) : ℚ) := by
    push_cast
    ring
  rw [h, Nat.floor_div_eq_div]

theorem pct_le_pct (s : Nat) {i j : Nat} (hij : i ≤ j) :
    i * 100 / s ≤ j * 100 / s :=
  Nat.div_le_div_right (Nat.mul_le_mul_right _ hij)

theorem pct_le_99 {i s : Nat} (h : i < s) : i * 100 / s ≤ 99 := by
  have h0 : 0 < s := lt_of_le_of_lt (Nat.zero_le i) h
  have h1 : i * 100 < 100 * s := by omega
  have h2 : i * 100 / s < 100 := (Nat.div_lt_iff_lt_mul h0).mpr (by omega)
  omega

/-- The fine-grained schedule is nondecreasing; every entry is at least the
percentage of the sweep's starting offset and at most 99. -/
theorem sweepSched_bounds (env : Env U Info) (scanSize : Nat)
    (data : List Nat) :
    ∀ (fuel scanStart i : Nat),
      List.Chain' (· ≤ ·) (sweepSched env scanSize data fuel scanStart i) ∧
        ∀ x ∈ sweepSched env scanSize data fuel scanStart i,
          i * 100 / scanSize ≤ x ∧ x ≤ 99 := by
  intro fuel
  induction fuel with
  | zero =>
    intro scanStart i
    simp [sweepSched]
  | succ fuel ih =>
    intro scanStart i
    by_cases h : i < scanSize
    · have key : ∀ ss' i', i ≤ i' →
          List.Chain' (· ≤ ·)
            ((if i % 4096 = 0 then [i * 100 / scanSize] else []) ++
              sweepSched env scanSize data fuel ss' i') ∧
            ∀ x ∈ (if i % 4096 = 0 then [i * 100 / scanSize] else []) ++
                sweepSched env scanSize data fuel ss' i',
              i * 100 / scanSize ≤ x ∧ x ≤ 99 := by
        intro ss' i' hii
        obtain ⟨hch, hbd⟩ := ih ss' i'
        by_cases hm : i % 4096 = 0
        · simp only [hm, if_true, List.singleton_append]
          refine ⟨List.chain'_cons'.mpr ⟨fun y hy => ?_, hch⟩, ?_⟩
          · exact le_trans (pct_le_pct _ hii)
              ((hbd y (List.mem_of_mem_head? hy)).1)
          · intro x hx
            rcases List.mem_cons.mp hx with rfl | hx
            · exact ⟨le_refl _, pct_le_99 h⟩
            · exact ⟨le_trans (pct_le_pct _ hii) ((hbd x hx).1), (hbd x hx).2⟩
        · simp only [hm, if_false, List.nil_append]
          exact ⟨hch, fun x hx =>
            ⟨le_trans (pct_le_pct _ hii) ((hbd x hx).1), (hbd x hx).2⟩⟩
      simp only [sweepSched, h, if_true]
      cases hd : env.disasm scanStart data i
          (min MAX_DISASM_BUFFER (scanSize - i)) with
      | some instr => exact key _ _ (Nat.le_add_right _ _)
      | none => exact key _ _ (Nat.le_add_right _ _)
    · simp [sweepSched, h]

/-- If every decoded instruction length is at least 1 byte, fuel
`scanSize - i` suffices: the sweep terminates. -/
theorem sweepCount_total (env : Env U Info) (cb : CBREF U Info)
    (scanSize : Nat) (data : List Nat)
    (hsz : ∀ a i m instr, env.disasm a data i m = some instr → 1 ≤ instr.size) :
    ∀ (fuel scanStart i : Nat) (u : U), scanSize - i ≤ fuel →
      (sweepCount env cb scanSize data fuel scanStart i u).isSome := by
  intro fuel
  induction fuel with
  | zero =>
    intro scanStart i u hf
    have h : ¬ i < scanSize := by omega
    simp [sweepCount, h]
  | succ fuel ih =>
    intro scanStart i u hf
    by_cases h : i < scanSize
    · simp only [sweepCount, h, if_true]
      cases hd : env.disasm scanStart data i
          (min MAX_DISASM_BUFFER (scanSize - i)) with
      | some instr =>
        have h1 := hsz _ _ _ _ hd
        have h2 := ih (scanStart + instr.size) (i + instr.size)
          (cb (some instr.info) u).2 (by omega)
        cases hc : sweepCount env cb scanSize data fuel (scanStart + instr.size)
            (i + instr.size) (cb (some instr.info) u).2 with
        | none => rw [hc] at h2; simp at h2
        | some p => simp [hc]
      | none => exact ih (scanStart + 1) (i + 1) u (by omega)
    · simp [sweepCount, h]

/-- If the predicate's match decision does not depend on the caller state,
the sweep's match count (and whether it terminates) does not either. -/
theorem sweepCount_fst_indep (env : Env U Info) (cb : CBREF U Info)
    (hcb : ∀ info u u', (cb info u).1 = (cb info u').1)
    (scanSize : Nat) (data : List Nat) :
    ∀ (fuel scanStart i : Nat) (u u' : U),
      (sweepCount env cb scanSize data fuel scanStart i u).map Prod.fst =
        (sweepCount env cb scanSize data fuel scanStart i u').map Prod.fst := by
  intro fuel
  induction fuel with
  | zero =>
    intro scanStart i u u'
    by_cases h : i < scanSize <;> simp [sweepCount, h]
  | succ fuel ih =>
    intro scanStart i u u'
    by_cases h : i < scanSize
    · simp only [sweepCount, h, if_true]
      cases hd : env.disasm scanStart data i
          (min MAX_DISASM_BUFFER (scanSize - i)) with
      | some instr =>
        have hb : (cb (some instr.info) u).1 = (cb (some instr.info) u').1 :=
          hcb _ _ _
        have hrec := ih (scanStart + instr.size) (i + instr.size)
          (cb (some instr.info) u).2 (cb (some instr.info) u').2
        rw [Option.map_map, Option.map_map]
        have hcomp : ∀ v : U,
            (Prod.fst ∘ fun p : Nat × U =>
              ((if (cb (some instr.info) v).1 then 1 else 0) + p.1, p.2)) =
            (fun n => (if (cb (some instr.info) v).1 then 1 else 0) + n) ∘
              Prod.fst := by
          intro v
          funext p
          rfl
        rw [hcomp, hcomp, ← Option.map_map, ← Option.map_map, hrec, hb]
      | none => exact ih (scanStart + 1) (i + 1) u u'
    · simp [sweepCount, h]

/-! ## Claim theorems -/

/-- C1 (code_bug): in region scope the source first lets `RefFindInRange`
accumulate the matches into the shared `refInfo.refcount` and then adds the
returned (already cumulative) count again (`refInfo.refcount +=
refFindInRangeRet`, reference.cpp:75), so `RefFind` returns twice the number
of matching instructions: on a one-instruction region whose single
instruction matches, the range scan counts 1 match but `RefFind` returns
2. -/
theorem refc1_region_count_doubled :
    (RefFindInRange env1 cbTrue false 0x1000 1 true regionSink
        ⟨0, (), "N (Region 4096)"⟩).map (fun r => r.1) = some 1 ∧
    (RefFind env1 cbTrue 0x1000 0 () false "N"
        REFFINDTYPE.CURRENT_REGION).map (fun r => r.1) = some 2 := by
  constructor <;> decide

/-- C3 (code_bug): with an explicit size, the source computes the clamp
bound as `Size - (Address - regionBase)` (reference.cpp:42) instead of
`regionSize - (Address - regionBase)`, contradicting its own comment "Make
sure the size fits in one page".  For `Address = 0x1008`, `Size = 0x20` and
region `(0x1000, 0x10)`, the effective range is `(0x1008, 0x18)`, whose end
`0x1020` lies past the region end `0x1010` (the spec's clamp would give
`min(0x20, 0x10 - 0x8) = 0x8`), and the memory read is attempted with the
unclamped size. -/
theorem refc3_region_clamp_uses_wrong_size :
    regionScanRange 0x1008 0x20 0x1000 0x10 = (0x1008, 0x18) ∧
    0x1000 + 0x10 < 0x1008 + 0x18 ∧
    min 0x20 (0x10 - (0x1008 - 0x1000)) = 0x8 ∧
    (RefFind env3 cbFalse 0x1008 0x20 () true "N"
        REFFINDTYPE.CURRENT_REGION).map (fun r => r.2.head?) =
      some (some (Event.memRead 0x1008 0x18)) := by
  refine ⟨by decide, by decide, by decide, by decide⟩

/-- C4 (confirmed): when the decoder fails at offset `i` of a live range,
the sweep does not abort: the next iteration runs at offset `i + 1` with the
same search state (so everything decodable after the bad byte is still
visited with the same predicate context), the match count is unchanged, and
the only events of the failing iteration are the possible fine-grained
progress report — no diagnostic. -/
theorem refc4_decode_failure_skips_one_byte (env : Env U Info)
    (cb : CBREF U Info) (sink : Nat → List Event) (scanSize : Nat)
    (data : List Nat) (fuel scanStart i : Nat)
    (hlt : i < scanSize)
    (hd : env.disasm scanStart data i (min MAX_DISASM_BUFFER (scanSize - i)) =
      none) :
    (∀ st : RefState U,
      sweep env cb sink scanSize data (fuel + 1) scanStart i st =
        (sweep env cb sink scanSize data fuel (scanStart + 1) (i + 1) st).map
          (fun r => (r.1,
            (if i % 4096 = 0 then sink (i * 100 / scanSize) else []) ++
              r.2))) ∧
    (∀ u : U,
      sweepCount env cb scanSize data (fuel + 1) scanStart i u =
        sweepCount env cb scanSize data fuel (scanStart + 1) (i + 1) u) ∧
    sweepSched env scanSize data (fuel + 1) scanStart i =
      (if i % 4096 = 0 then [i * 100 / scanSize] else []) ++
        sweepSched env scanSize data fuel (scanStart + 1) (i + 1) := by
  refine ⟨fun st => ?_, fun u => ?_, ?_⟩ <;>
    simp [sweep, sweepCount, sweepSched, hlt, hd]

theorem refc4_witness :
    (sweep baseEnv cbFalse overallSink 2 [] 4 7 0 ⟨0, (), ""⟩ =
      (sweep baseEnv cbFalse overallSink 2 [] 3 8 1 ⟨0, (), ""⟩).map
        (fun r => (r.1,
          (if 0 % 4096 = 0 then overallSink (0 * 100 / 2) else []) ++
            r.2))) ∧
    (sweepCount baseEnv cbFalse 2 [] 4 7 0 () =
      sweepCount baseEnv cbFalse 2 [] 3 8 1 ()) ∧
    sweepSched baseEnv 2 [] 4 7 0 =
      (if 0 % 4096 = 0 then [0 * 100 / 2] else []) ++
        sweepSched baseEnv 2 [] 3 8 1 := by
  have h := refc4_decode_failure_skips_one_byte baseEnv cbFalse overallSink 2
    [] 3 7 0 (by decide) (by decide)
  exact ⟨h.1 ⟨0, (), ""⟩, h.2.1 (), h.2.2⟩

/-- C6 (confirmed): the all-modules progress lambda forwards, for module
index `i` out of `ms.length`, the range-local percentage with the module's
name and the overall percentage
`⌊((i + percent / 100) / ms.length) * 100⌋`; the region and module scope
lambdas (their range count is 1) forward the range-local percentage itself
as the overall percentage. -/
theorem refc6_overall_percentage_formula (ms : List MODINFO) (i p : Nat) :
    allModulesSink ms i p =
      [Event.taskProgress p (ms.getD i ⟨0, 0, ""⟩).name,
       Event.overallProgress
         (Nat.floor ((((i : ℚ) + (p : ℚ) / 100) / (ms.length : ℚ)) * 100))] ∧
    regionSink p =
      [Event.taskProgress p "Region Search", Event.overallProgress p] ∧
    moduleSink p =
      [Event.taskProgress p "Module Search", Event.overallProgress p] := by
  refine ⟨?_, rfl, rfl⟩
  unfold allModulesSink
  rw [← totalPercent_eq_floor]

/-- C8 (confirmed): if the region lookup yields no base or a zero size,
region-scope `RefFind` reports 0, emits exactly one diagnostic naming the
address unless silenced, and attempts no memory read (the trace contains no
`memRead` event). -/
theorem refc8_region_not_found (env : Env U Info) (cb : CBREF U Info)
    (Address Size : Nat) (u : U) (Silent : Bool) (Name : String)
    (h : (env.memFindBaseAddr Address).1 = 0 ∨
      (env.memFindBaseAddr Address).2 = 0) :
    RefFind env cb Address Size u Silent Name REFFINDTYPE.CURRENT_REGION =
      some (0, if Silent then [] else [Event.diagInvalidPage Address]) ∧
    ∀ a n, Event.memRead a n ∉
      (if Silent then ([] : List Event) else [Event.diagInvalidPage Address]) := by
  constructor
  · simp only [RefFind]
    rw [if_pos h]
  · intro a n
    cases Silent <;> simp

theorem refc8_witness :
    RefFind baseEnv cbFalse 5 0 () false "N" REFFINDTYPE.CURRENT_REGION =
      some (0, [Event.diagInvalidPage 5]) ∧
    Event.memRead 3 7 ∉ [Event.diagInvalidPage 5] := by
  have h := refc8_region_not_found baseEnv cbFalse 5 0 () false "N"
    (Or.inl rfl)
  exact ⟨h.1, h.2 3 7⟩

/-- C10 (confirmed): on a readable range, if every decoded instruction
length is at least 1 byte then the sweep terminates — each iteration
advances the offset by the decoded length on success and by exactly one byte
on failure, so fuel `scanSize` suffices and `RefFindInRange` returns a
value. -/
theorem refc10_sweep_terminates (env : Env U Info) (cb : CBREF U Info)
    (Silent : Bool) (scanStart scanSize : Nat) (initCallBack : Bool)
    (sink : Nat → List Event) (st : RefState U) (data : List Nat)
    (hmem : env.memRead scanStart scanSize = some data)
    (hsz : ∀ a i m instr, env.disasm a data i m = some instr →
      1 ≤ instr.size) :
    (RefFindInRange env cb Silent scanStart scanSize initCallBack sink
        st).isSome = true := by
  obtain ⟨r, u, nm⟩ := st
  rw [RefFindInRange_eq env cb Silent scanStart scanSize initCallBack sink
    r u nm data hmem]
  have h := sweepCount_total env cb scanSize data hsz scanSize scanStart 0
    (if initCallBack then (cb none u).2 else u) (by omega)
  cases hc : sweepCount env cb scanSize data scanSize scanStart 0
      (if initCallBack then (cb none u).2 else u) with
  | none => rw [hc] at h; simp at h
  | some p => simp [hc]

theorem refc10_witness :
    (RefFindInRange env1 cbTrue false 5 3 true overallSink
        ⟨0, (), ""⟩).isSome = true := by
  exact refc10_sweep_terminates env1 cbTrue false 5 3 true overallSink
    ⟨0, (), ""⟩ [0x90] rfl
    (by intro a i m instr h; cases h; exact Nat.le_refl 1)

/-- The overall percentages a range scan reports through a sink that
forwards one overall percentage `f p` per callback: the schedule mapped
through `f`, then `f 100`. -/
theorem RFIR_percents (env : Env U Info) (cb : CBREF U Info) (Silent : Bool)
    (scanStart scanSize : Nat) (initCallBack : Bool)
    (sink : Nat → List Event) (f : Nat → Nat)
    (hsink : ∀ p, percentsOf (sink p) = [f p]) (st : RefState U)
    (data : List Nat) (hmem : env.memRead scanStart scanSize = some data)
    (ret : Nat) (stf : RefState U) (evs : List Event)
    (h : RefFindInRange env cb Silent scanStart scanSize initCallBack sink
      st = some (ret, stf, evs)) :
    percentsOf evs =
      (sweepSched env scanSize data scanSize scanStart 0).map f ++ [f 100] := by
  obtain ⟨r, u, nm⟩ := st
  rw [RefFindInRange_eq env cb Silent scanStart scanSize initCallBack sink
    r u nm data hmem] at h
  cases hc : sweepCount env cb scanSize data scanSize scanStart 0
      (if initCallBack then (cb none u).2 else u) with
  | none => rw [hc] at h; simp at h
  | some p =>
    rw [hc] at h
    simp only [Option.map_some', Option.some.injEq, Prod.mk.injEq] at h
    obtain ⟨-, -, hevs⟩ := h
    rw [← hevs, percentsOf_memRead, percentsOf_append,
      percentsOf_flatten_map sink f hsink, hsink]

set_option maxRecDepth 100000 in
/-- C5 (corrected — counterexample to the claim as stated): the loop only
reports when the visited offset is an exact multiple of 4096
(`if((i % 0x1000) == 0)`, reference.cpp:206), and a decoded instruction can
step over such a boundary.  With 15-byte instructions over a 4100-byte range
the sweep completes, crossing the 4096-byte boundary, yet the only reports
are the initial 0 and the final 100 — the report for the 4096-byte advance
(`4096 * 100 / 4100 = 99`) never happens, so progress is *not* reported at
every 4096 bytes of offset advance. -/
theorem refc5_counterexample :
    (RefFindInRange env5 cbFalse false 0 4100 false overallSink
        ⟨0, (), ""⟩).map (fun r => percentsOf r.2.2) = some [0, 100] ∧
    4096 % 4096 = 0 ∧ 4096 < 4100 ∧
    4096 * 100 / 4100 ∉ ([0, 100] : List Nat) := by
  refine ⟨?_, by decide, by decide, by decide⟩
  rw [RefFindInRange_eq env5 cbFalse false 0 4100 false overallSink 0 () ""
    [] rfl]
  rw [show sweepCount env5 cbFalse 4100 [] 4100 0 0
      (if false then (cbFalse none ()).2 else ()) = some (0, ()) from by
    decide]
  rw [show sweepSched env5 4100 [] 4100 0 0 = [0] from by decide]
  rfl

/-- C5 (corrected, amended claim): during a range sweep, fine-grained
progress is reported exactly at the visited offsets that are exact multiples
of 4096 (a decoded instruction may step over a 4096-byte boundary without a
report), with value `⌊offset / scanSize * 100⌋ = offset * 100 / scanSize`;
every fine-grained report is at most 99; and after the loop completes, 100%
is reported exactly once, unconditionally — including when the range is
empty. -/
theorem refc5_progress_schedule (env : Env U Info) (cb : CBREF U Info)
    (Silent : Bool) (scanStart scanSize : Nat) (initCallBack : Bool)
    (st : RefState U) (data : List Nat)
    (hmem : env.memRead scanStart scanSize = some data)
    (ret : Nat) (stf : RefState U) (evs : List Event)
    (h : RefFindInRange env cb Silent scanStart scanSize initCallBack
      overallSink st = some (ret, stf, evs)) :
    percentsOf evs =
      sweepSched env scanSize data scanSize scanStart 0 ++ [100] ∧
    (∀ x ∈ sweepSched env scanSize data scanSize scanStart 0, x ≤ 99) ∧
    (percentsOf evs).count 100 = 1 ∧
    (scanSize = 0 → percentsOf evs = [100]) ∧
    (∀ i s : Nat, i * 100 / s = Nat.floor (((i : ℚ) / (s : ℚ)) * 100)) := by
  have hperc := RFIR_percents env cb Silent scanStart scanSize initCallBack
    overallSink id (fun p => rfl) st data hmem ret stf evs h
  rw [List.map_id] at hperc
  obtain ⟨-, hbd⟩ := sweepSched_bounds env scanSize data scanSize scanStart 0
  refine ⟨hperc, fun x hx => (hbd x hx).2, ?_, ?_, pct_eq_floor⟩
  · rw [hperc, List.count_append]
    have h0 : (sweepSched env scanSize data scanSize scanStart 0).count 100
        = 0 := by
      rw [List.count_eq_zero]
      intro hmem100
      have := (hbd 100 hmem100).2
      omega
    rw [h0]
    rfl
  · intro h0
    subst h0
    rw [hperc]
    rfl

theorem refc5_witness :
    percentsOf [Event.memRead 0 1, Event.overallProgress 0,
        Event.overallProgress 100] = sweepSched envR 1 [] 1 0 0 ++ [100] ∧
    (∀ x ∈ sweepSched envR 1 [] 1 0 0, x ≤ 99) ∧
    (percentsOf [Event.memRead 0 1, Event.overallProgress 0,
        Event.overallProgress 100]).count 100 = 1 ∧
    ((1 : Nat) = 0 → percentsOf [Event.memRead 0 1, Event.overallProgress 0,
        Event.overallProgress 100] = [100]) ∧
    (∀ i s : Nat, i * 100 / s = Nat.floor (((i : ℚ) / (s : ℚ)) * 100)) :=
  refc5_progress_schedule envR cbFalse false 0 1 false ⟨0, (), ""⟩ [] rfl
    0 ⟨0, (), ""⟩ _ (by decide)

/-- C9 (confirmed): whenever a range scan completes with the cumulative
match count still 0 (`if(!refFindInRangeRet) return refFindInRangeRet`,
reference.cpp:72/118/173), `RefFind` returns 0 with the events produced so
far and nothing more: the final 100% overall report and final
`GuiReferenceReloadData` (reference.cpp:180-181) are skipped in every scope
(in region scope the per-range reload at reference.cpp:70 has already
happened; in module scope even the per-range reload at :121 is skipped),
and in the all-modules scope the remaining modules are not scanned — the
result does not depend on `rest` at all.  A successful zero-match scan is
thereby reported exactly like a failed one. -/
theorem refc9_zero_cumulative_early_return :
    (∀ (env : Env U Info) (cb : CBREF U Info) (Address Size : Nat) (u : U)
        (Silent : Bool) (Name : String) (b s : Nat) (st : RefState U)
        (evs : List Event),
      env.memFindBaseAddr Address = (b, s) → b ≠ 0 → s ≠ 0 →
      RefFindInRange env cb Silent (regionScanRange Address Size b s).1
          (regionScanRange Address Size b s).2 true regionSink
          ⟨0, u, regionFullName env Name (regionScanRange Address Size b s).1⟩
        = some (0, st, evs) →
      RefFind env cb Address Size u Silent Name REFFINDTYPE.CURRENT_REGION =
        some (0, evs ++ [Event.reloadData])) ∧
    (∀ (env : Env U Info) (cb : CBREF U Info) (Address Size : Nat) (u : U)
        (Silent : Bool) (Name : String) (mb msz : Nat) (st : RefState U)
        (evs : List Event),
      env.modInfoFromAddr Address = some (mb, msz) →
      RefFindInRange env cb Silent mb msz true moduleSink
          ⟨0, u, moduleFullName env Name mb⟩ = some (0, st, evs) →
      RefFind env cb Address Size u Silent Name REFFINDTYPE.CURRENT_MODULE =
        some (0, evs)) ∧
    (∀ (env : Env U Info) (cb : CBREF U Info) (Silent : Bool)
        (msAll : List MODINFO) (m : MODINFO) (rest : List MODINFO) (i : Nat)
        (st0 st : RefState U) (evs : List Event),
      RefFindInRange env cb Silent m.base m.size (i == 0)
          (allModulesSink msAll i) st0 = some (0, st, evs) →
      refFindAllModLoop env cb Silent msAll (m :: rest) i st0 =
        some (0, evs)) := by
  refine ⟨?_, ?_, ?_⟩
  · intro env cb Address Size u Silent Name b s st evs hra hb hs hr
    simp only [RefFind, hra]
    rw [if_neg (by simp [hb, hs])]
    rw [hr]
    simp
  · intro env cb Address Size u Silent Name mb msz st evs hmi hr
    simp only [RefFind, hmi]
    rw [hr]
    simp
  · intro env cb Silent msAll m rest i st0 st evs hr
    simp only [refFindAllModLoop, hr]
    simp

theorem refc9_witness :
    (RefFind env9 cbFalse 0x1000 0 () false "N"
        REFFINDTYPE.CURRENT_REGION =
      some (0, [Event.memRead 0x1000 1,
        Event.taskProgress 0 "Region Search", Event.overallProgress 0,
        Event.taskProgress 100 "Region Search", Event.overallProgress 100,
        Event.reloadData])) ∧
    (RefFind env9 cbFalse 0x1000 0 () false "N"
        REFFINDTYPE.CURRENT_MODULE =
      some (0, [Event.memRead 0x1000 1,
        Event.taskProgress 0 "Module Search", Event.overallProgress 0,
        Event.taskProgress 100 "Module Search",
        Event.overallProgress 100])) ∧
    (refFindAllModLoop env9 cbFalse false [⟨0x1000, 1, "m"⟩]
        [⟨0x1000, 1, "m"⟩] 0 ⟨0, (), "All Modules (N)"⟩ =
      some (0, [Event.memRead 0x1000 1, Event.taskProgress 0 "m",
        Event.overallProgress 0, Event.taskProgress 100 "m",
        Event.overallProgress 100])) :=
  ⟨refc9_zero_cumulative_early_return.1 env9 cbFalse 0x1000 0 () false "N"
      0x1000 1 ⟨0, (), "N (Region 4096)"⟩
      [Event.memRead 0x1000 1, Event.taskProgress 0 "Region Search",
        Event.overallProgress 0, Event.taskProgress 100 "Region Search",
        Event.overallProgress 100] rfl (by decide) (by decide) (by decide),
   refc9_zero_cumulative_early_return.2.1 env9 cbFalse 0x1000 0 () false "N"
      0x1000 1 ⟨0, (), "N (4096)"⟩
      [Event.memRead 0x1000 1, Event.taskProgress 0 "Module Search",
        Event.overallProgress 0, Event.taskProgress 100 "Module Search",
        Event.overallProgress 100] rfl (by decide),
   refc9_zero_cumulative_early_return.2.2 env9 cbFalse false
      [⟨0x1000, 1, "m"⟩] ⟨0x1000, 1, "m"⟩ [] 0 ⟨0, (), "All Modules (N)"⟩
      ⟨0, (), "All Modules (N)"⟩
      [Event.memRead 0x1000 1, Event.taskProgress 0 "m",
        Event.overallProgress 0, Event.taskProgress 100 "m",
        Event.overallProgress 100] (by decide)⟩

/-- The sweep does not consult the module list. -/
theorem sweepCount_modGetList (env : Env U Info) (ms' : List MODINFO)
    (cb : CBREF U Info) (scanSize : Nat) (data : List Nat) :
    ∀ (fuel scanStart i : Nat) (u : U),
      sweepCount { env with modGetList := ms' } cb scanSize data fuel
          scanStart i u =
        sweepCount env cb scanSize data fuel scanStart i u := by
  intro fuel
  induction fuel with
  | zero => intro scanStart i u; rfl
  | succ fuel ih =>
    intro scanStart i u
    by_cases h : i < scanSize
    · simp only [sweepCount, h, if_true]
      cases hd : env.disasm scanStart data i
          (min MAX_DISASM_BUFFER (scanSize - i)) with
      | some instr => simp [hd, ih]
      | none => simp [hd, ih]
    · simp [sweepCount, h]

/-- Neither does the schedule. -/
theorem sweepSched_modGetList (env : Env U Info) (ms' : List MODINFO)
    (scanSize : Nat) (data : List Nat) :
    ∀ (fuel scanStart i : Nat),
      sweepSched ({ env with modGetList := ms' } : Env U Info) scanSize data
          fuel scanStart i =
        sweepSched env scanSize data fuel scanStart i := by
  intro fuel
  induction fuel with
  | zero => intro scanStart i; rfl
  | succ fuel ih =>
    intro scanStart i
    by_cases h : i < scanSize
    · simp only [sweepSched, h, if_true]
      cases hd : env.disasm scanStart data i
          (min MAX_DISASM_BUFFER (scanSize - i)) with
      | some instr => simp [hd, ih]
      | none => simp [hd, ih]
    · simp [sweepSched, h]

/-- Nor does a single range scan. -/
theorem RefFindInRange_modGetList (env : Env U Info) (ms' : List MODINFO)
    (cb : CBREF U Info) (Silent : Bool) (scanStart scanSize : Nat)
    (initCallBack : Bool) (sink : Nat → List Event) (st : RefState U) :
    RefFindInRange { env with modGetList := ms' } cb Silent scanStart
        scanSize initCallBack sink st =
      RefFindInRange env cb Silent scanStart scanSize initCallBack sink
        st := by
  obtain ⟨r, u, nm⟩ := st
  cases hmem : env.memRead scanStart scanSize with
  | none => simp [RefFindInRange, hmem]
  | some data =>
    rw [RefFindInRange_eq env cb Silent scanStart scanSize initCallBack sink
      r u nm data hmem]
    rw [RefFindInRange_eq { env with modGetList := ms' } cb Silent scanStart
      scanSize initCallBack sink r u nm data hmem]
    rw [sweepCount_modGetList, sweepSched_modGetList]

/-- The per-module match count does not depend on the module list either. -/
theorem modCount_modGetList (env : Env U Info) (ms' : List MODINFO)
    (cb : CBREF U Info) (u : U) (m : MODINFO) :
    modCount { env with modGetList := ms' } cb u m = modCount env cb u m := by
  unfold modCount
  cases hmem : env.memRead m.base m.size with
  | none => rfl
  | some data => simp [sweepCount_modGetList]

/-- The all-modules loop consults the environment only through the range
scans. -/
theorem refFindAllModLoop_modGetList (env : Env U Info) (ms' : List MODINFO)
    (cb : CBREF U Info) (Silent : Bool) (msAll : List MODINFO) :
    ∀ (rest : List MODINFO) (i : Nat) (st : RefState U),
      refFindAllModLoop { env with modGetList := ms' } cb Silent msAll rest
          i st =
        refFindAllModLoop env cb Silent msAll rest i st := by
  intro rest
  induction rest with
  | nil => intro i st; rfl
  | cons m rest ih =>
    intro i st
    simp only [refFindAllModLoop, RefFindInRange_modGetList]
    cases hr : RefFindInRange env cb Silent m.base m.size (i == 0)
        (allModulesSink msAll i) st with
    | none => rfl
    | some r => simp [ih]

/-- The accumulated total of the all-modules loop: if every module's memory
is readable, the predicate's decision ignores the caller state, and after
each scanned module the cumulative count is nonzero (so the early return of
reference.cpp:173-174 never fires), the loop returns the incoming count plus
the sum of the per-module match counts. -/
theorem allModLoop_count (env : Env U Info) (cb : CBREF U Info)
    (hcb : ∀ info u u', (cb info u).1 = (cb info u').1) (Silent : Bool)
    (msAll : List MODINFO) (u0 : U) :
    ∀ (rest : List MODINFO) (i : Nat) (st : RefState U) (total : Nat)
        (evs : List Event),
      (∀ m ∈ rest, env.memRead m.base m.size ≠ none) →
      (∀ k < rest.length,
        0 < st.refcount +
          ((rest.take (k + 1)).map (modCount env cb u0)).sum) →
      refFindAllModLoop env cb Silent msAll rest i st = some (total, evs) →
      total = st.refcount + (rest.map (modCount env cb u0)).sum := by
  intro rest
  induction rest with
  | nil =>
    intro i st total evs hmem hpos h
    simp only [refFindAllModLoop, Option.some.injEq, Prod.mk.injEq] at h
    simp [← h.1]
  | cons m rest ih =>
    intro i st total evs hmem hpos h
    obtain ⟨r, u, nm⟩ := st
    cases hrd : env.memRead m.base m.size with
    | none => exact absurd hrd (hmem m (List.mem_cons_self m rest))
    | some data =>
      rw [refFindAllModLoop] at h
      rw [RefFindInRange_eq env cb Silent m.base m.size (i == 0)
        (allModulesSink msAll i) r u nm data hrd] at h
      cases hc : sweepCount env cb m.size data m.size m.base 0
          (if (i == 0) = true then (cb none u).2 else u) with
      | none => rw [hc] at h; simp at h
      | some p =>
        rw [hc] at h
        simp only [Option.map_some'] at h
        -- the count of this module, independent of the caller state
        have hind := sweepCount_fst_indep env cb hcb m.size data m.size
          m.base 0 (if (i == 0) = true then (cb none u).2 else u) u0
        rw [hc] at hind
        have hcntm : modCount env cb u0 m = p.1 := by
          unfold modCount
          rw [hrd]
          cases hq : sweepCount env cb m.size data m.size m.base 0 u0 with
          | none => rw [hq] at hind; simp at hind
          | some q =>
            rw [hq] at hind
            simp only [Option.map_some', Option.some.injEq] at hind
            simp only [hq]
            omega
        have hret : r + p.1 ≠ 0 := by
          have h0 := hpos 0 (by simp)
          simp only [List.take_succ_cons, List.take_zero, List.map_cons,
            List.map_nil, List.sum_cons, List.sum_nil] at h0
          omega
        rw [if_neg hret] at h
        cases hrec : refFindAllModLoop env cb Silent msAll rest (i + 1)
            ⟨r + p.1, p.2, nm⟩ with
        | none => rw [hrec] at h; simp at h
        | some q =>
          rw [hrec] at h
          simp only [Option.map_some', Option.some.injEq, Prod.mk.injEq] at h
          have htot : q.1 = (r + p.1) +
              (rest.map (modCount env cb u0)).sum := by
            refine ih (i + 1) ⟨r + p.1, p.2, nm⟩ q.1 q.2
              (fun m' hm' => hmem m' (List.mem_cons_of_mem m hm')) ?_ (by
                rw [hrec])
            intro k hk
            have hk1 := hpos (k + 1) (by simp; omega)
            simp only [List.take_succ_cons, List.map_cons, List.sum_cons]
              at hk1
            simp only [RefState.refcount]
            omega
          simp only [List.map_cons, List.sum_cons]
          omega

/-- C2 (corrected — counterexample to the claim as stated): the early return
`if(!refFindInRangeRet) return refFindInRangeRet` (reference.cpp:173-174)
tests the *cumulative* count, so when every module scan succeeds but the
first module has no matches, the operation stops before the later modules.
With module `a` (no matches) before module `b` (one match), both readable,
`RefFind` returns 0 although the per-module counts sum to 1; with the same
two modules enumerated in the opposite order it returns 1 — the total is
neither the sum of per-module counts nor invariant under reordering. -/
theorem refc2_counterexample :
    (RefFind env2AB cbTrue 0 0 () false "N" REFFINDTYPE.ALL_MODULES).map
      (fun r => r.1) = some 0 ∧
    (env2AB.modGetList.map (modCount env2AB cbTrue ())).sum = 1 ∧
    (env2BA.modGetList.Perm env2AB.modGetList ∧
      ∀ m, modCount env2BA cbTrue () m = modCount env2AB cbTrue () m) ∧
    (RefFind env2BA cbTrue 0 0 () false "N" REFFINDTYPE.ALL_MODULES).map
      (fun r => r.1) = some 1 := by
  refine ⟨by decide, by decide,
    ⟨by decide, fun m => modCount_modGetList env2AB
      [⟨0x2000, 1, "b"⟩, ⟨0x1000, 1, "a"⟩] cbTrue () m⟩, by decide⟩

/-- C2 (corrected, amended claim): for an all-modules request in which every
module's memory is readable, the predicate's match decision does not depend
on the accumulated caller state, and every scanned prefix of modules has a
nonzero cumulative match count (so the zero-cumulative early return of
reference.cpp:173-174 never fires), the returned total equals the sum of the
per-module match counts; and any permutation of the module list that also
satisfies the prefix condition yields the same total. -/
theorem refc2_all_modules_sum (env : Env U Info) (cb : CBREF U Info)
    (Address Size : Nat) (u : U) (Silent : Bool) (Name : String)
    (hcb : ∀ info v v', (cb info v).1 = (cb info v').1)
    (total : Nat) (evs : List Event)
    (hmem : ∀ m ∈ env.modGetList, env.memRead m.base m.size ≠ none)
    (hpos : ∀ k < env.modGetList.length,
      0 < ((env.modGetList.take (k + 1)).map (modCount env cb u)).sum)
    (h : RefFind env cb Address Size u Silent Name REFFINDTYPE.ALL_MODULES =
      some (total, evs)) :
    total = (env.modGetList.map (modCount env cb u)).sum ∧
    ∀ (ms' : List MODINFO), ms'.Perm env.modGetList →
      (∀ k < ms'.length,
        0 < ((ms'.take (k + 1)).map (modCount env cb u)).sum) →
      ∀ (total' : Nat) (evs' : List Event),
        RefFind ({ env with modGetList := ms' } : Env U Info) cb Address
          Size u Silent Name REFFINDTYPE.ALL_MODULES =
          some (total', evs') →
        total' = total := by
  by_cases hlen : env.modGetList.length = 0
  · have hnil : env.modGetList = [] := List.length_eq_zero.mp hlen
    have htot : total = 0 := by
      simp only [RefFind, hlen, if_pos] at h
      exact (Prod.mk.injEq _ _ _ _ ▸ (Option.some.injEq _ _ ▸ h)).1.symm
    constructor
    · rw [hnil, htot]
      rfl
    · intro ms' hperm hpos' total' evs' h'
      have hnil' : ms' = [] := (hnil ▸ hperm).eq_nil
      simp only [RefFind, hnil', List.length_nil, if_pos] at h'
      have : total' = 0 :=
        (Prod.mk.injEq _ _ _ _ ▸ (Option.some.injEq _ _ ▸ h')).1.symm
      omega
  · simp only [RefFind] at h
    rw [if_neg hlen] at h
    have htot := allModLoop_count env cb hcb Silent env.modGetList u
      env.modGetList 0 ⟨0, u, "All Modules (" ++ Name ++ ")"⟩ total evs hmem
      (by intro k hk; simpa using hpos k hk) h
    simp only [RefState.refcount, Nat.zero_add] at htot
    refine ⟨htot, ?_⟩
    intro ms' hperm hpos' total' evs' h'
    have hlen' : ¬ ms'.length = 0 := by
      rw [hperm.length_eq]
      exact hlen
    simp only [RefFind] at h'
    rw [if_neg hlen'] at h'
    rw [refFindAllModLoop_modGetList] at h'
    have hmem' : ∀ m ∈ ms', env.memRead m.base m.size ≠ none :=
      fun m hm => hmem m (hperm.mem_iff.mp hm)
    have htot' := allModLoop_count env cb hcb Silent ms' u ms' 0
      ⟨0, u, "All Modules (" ++ Name ++ ")"⟩ total' evs' hmem'
      (by intro k hk; simpa using hpos' k hk) h'
    have hsum : (ms'.map (modCount env cb u)).sum =
        (env.modGetList.map (modCount env cb u)).sum :=
      (hperm.map (modCount env cb u)).sum_eq
    simp only [RefState.refcount, Nat.zero_add] at htot'
    omega

theorem refc2_witness :
    (2 : Nat) = (env2W.modGetList.map (modCount env2W cbTrue ())).sum ∧
    (2 : Nat) = 2 := by
  have h := refc2_all_modules_sum env2W cbTrue 0 0 () false "N"
    (fun info v v' => rfl) 2
    [Event.memRead 4096 1, Event.taskProgress 0 "a", Event.overallProgress 0,
      Event.taskProgress 100 "a", Event.overallProgress 50, Event.reloadData,
      Event.memRead 8192 1, Event.taskProgress 0 "b",
      Event.overallProgress 50, Event.taskProgress 100 "b",
      Event.overallProgress 100, Event.reloadData, Event.overallProgress 100,
      Event.reloadData]
    (by decide) (by decide) (by decide)
  exact ⟨h.1, h.2 [⟨0x2000, 1, "b"⟩, ⟨0x1000, 1, "a"⟩] (by decide)
    (by decide) 2
    [Event.memRead 8192 1, Event.taskProgress 0 "b", Event.overallProgress 0,
      Event.taskProgress 100 "b", Event.overallProgress 50, Event.reloadData,
      Event.memRead 4096 1, Event.taskProgress 0 "a",
      Event.overallProgress 50, Event.taskProgress 100 "a",
      Event.overallProgress 100, Event.reloadData, Event.overallProgress 100,
      Event.reloadData]
    (by decide)⟩

theorem natdiv_le_100 {a n : Nat} (h : a ≤ 100 * n) : a / n ≤ 100 := by
  rcases Nat.eq_zero_or_pos n with rfl | hn
  · simp
  · calc a / n ≤ 100 * n / n := Nat.div_le_div_right h
      _ = 100 := Nat.mul_div_cancel 100 hn

theorem chain'_le_append {l r : List Nat} (hl : List.Chain' (· ≤ ·) l)
    (hr : List.Chain' (· ≤ ·) r) (hlr : ∀ x ∈ l, ∀ y ∈ r, x ≤ y) :
    List.Chain' (· ≤ ·) (l ++ r) :=
  List.chain'_append.mpr ⟨hl, hr, fun x hx y hy =>
    hlr x (List.mem_of_mem_getLast? hx) y (List.mem_of_mem_head? hy)⟩

/-- The overall percentages of one range scan through a pass-through sink,
followed by the final 100% report, form a nondecreasing list ending in
100. -/
theorem percents_id_sink_chain (env : Env U Info) (cb : CBREF U Info)
    (Silent : Bool) (scanStart scanSize : Nat) (initCallBack : Bool)
    (sink : Nat → List Event) (hsink : ∀ p, percentsOf (sink p) = [p])
    (st : RefState U) (data : List Nat)
    (hmem : env.memRead scanStart scanSize = some data)
    (ret : Nat) (stf : RefState U) (evs0 : List Event)
    (hr : RefFindInRange env cb Silent scanStart scanSize initCallBack sink
      st = some (ret, stf, evs0)) :
    List.Chain' (· ≤ ·) (percentsOf evs0 ++ [100]) ∧
    (percentsOf evs0 ++ [100]).getLast? = some 100 := by
  have hp := RFIR_percents env cb Silent scanStart scanSize initCallBack
    sink id hsink st data hmem ret stf evs0 hr
  rw [List.map_id] at hp
  simp only [id] at hp
  obtain ⟨hch, hbd⟩ := sweepSched_bounds env scanSize data scanSize
    scanStart 0
  have hsplit : percentsOf evs0 ++ [100] =
      sweepSched env scanSize data scanSize scanStart 0 ++ [100, 100] := by
    rw [hp, List.append_assoc]
    rfl
  constructor
  · rw [hsplit]
    refine chain'_le_append hch (by simp) ?_
    intro x hx y hy
    have h99 := (hbd x hx).2
    have : y = 100 := by
      rcases List.mem_cons.mp hy with rfl | hy'
      · rfl
      · simpa using hy'
    omega
  · rw [hsplit]
    simp

/-- Overall-progress monotonicity of the all-modules loop: if the loop over
the remaining modules (starting at index `i` of `msAll.length`) returns a
nonzero total, its overall percentages are nondecreasing, lie between
`100 * i / msAll.length` and 100, and end at exactly 100. -/
theorem allModLoop_mono (env : Env U Info) (cb : CBREF U Info)
    (Silent : Bool) (msAll : List MODINFO) :
    ∀ (rest : List MODINFO) (i : Nat) (st : RefState U) (total : Nat)
        (evs : List Event),
      i + rest.length = msAll.length →
      refFindAllModLoop env cb Silent msAll rest i st = some (total, evs) →
      0 < total →
      List.Chain' (· ≤ ·) (percentsOf evs) ∧
      (∀ x ∈ percentsOf evs,
        100 * i / msAll.length ≤ x ∧ x ≤ 100) ∧
      (percentsOf evs).getLast? = some 100 := by
  intro rest
  induction rest with
  | nil =>
    intro i st total evs hlen h hpos
    simp only [refFindAllModLoop, Option.some.injEq, Prod.mk.injEq] at h
    rw [← h.2]
    refine ⟨List.chain'_singleton 100, ?_, rfl⟩
    intro x hx
    have hx100 : x = 100 := by simpa [percentsOf] using hx
    subst hx100
    have hi : i = msAll.length := by simpa using hlen
    subst hi
    exact ⟨natdiv_le_100 (le_refl _), le_refl _⟩
  | cons m rest ih =>
    intro i st total evs hlen h hpos
    rw [refFindAllModLoop] at h
    cases hr : RefFindInRange env cb Silent m.base m.size (i == 0)
        (allModulesSink msAll i) st with
    | none => simp only [hr] at h; cases h
    | some r =>
      obtain ⟨ret, st', evs0⟩ := r
      simp only [hr] at h
      by_cases hret : ret = 0
      · rw [if_pos hret] at h
        simp only [Option.some.injEq, Prod.mk.injEq] at h
        omega
      · rw [if_neg hret] at h
        cases hrec : refFindAllModLoop env cb Silent msAll rest (i + 1)
            st' with
        | none => rw [hrec] at h; cases h
        | some q =>
          rw [hrec] at h
          simp only [Option.map_some', Option.some.injEq, Prod.mk.injEq] at h
          obtain ⟨htot, hevs⟩ := h
          -- the memory read must have succeeded, else ret = 0
          cases hmem : env.memRead m.base m.size with
          | none =>
            simp only [RefFindInRange, hmem, Option.some.injEq,
              Prod.mk.injEq] at hr
            exact absurd hr.1.symm hret
          | some data =>
            have hp := RFIR_percents env cb Silent m.base m.size (i == 0)
              (allModulesSink msAll i)
              (fun p => (100 * i + p) / msAll.length)
              (percentsOf_allModulesSink msAll i) st data hmem ret st' evs0
              hr
            have hIH := ih (i + 1) st' q.1 q.2 (by simp at hlen; omega) (by
              rw [hrec]) (by omega)
            obtain ⟨ihch, ihbd, ihlast⟩ := hIH
            have hn1 : i + 1 ≤ msAll.length := by simp at hlen; omega
            -- percentages of this module's segment
            obtain ⟨hch, hbd⟩ := sweepSched_bounds env m.size data m.size
              m.base 0
            have hmono : ∀ p q : Nat, p ≤ q →
                (100 * i + p) / msAll.length ≤
                  (100 * i + q) / msAll.length :=
              fun p q hpq =>
                Nat.div_le_div_right (Nat.add_le_add_left hpq _)
            have hup : ∀ p : Nat, p ≤ 100 →
                (100 * i + p) / msAll.length ≤ 100 := by
              intro p hp
              refine natdiv_le_100 ?_
              calc 100 * i + p ≤ 100 * i + 100 := Nat.add_le_add_left hp _
                _ = 100 * (i + 1) := by ring
                _ ≤ 100 * msAll.length := Nat.mul_le_mul_left _ hn1
            have hseg : ∀ x ∈ percentsOf evs0,
                100 * i / msAll.length ≤ x ∧
                  x ≤ (100 * i + 100) / msAll.length := by
              intro x hx
              rw [hp] at hx
              rcases List.mem_append.mp hx with hx' | hx'
              · obtain ⟨p, hpmem, rfl⟩ := List.mem_map.mp hx'
                constructor
                · have := hmono 0 p (Nat.zero_le p)
                  simpa using this
                · exact hmono p 100 (le_of_lt (by
                    have := (hbd p hpmem).2; omega))
              · have hx100 : x = (100 * i + 100) / msAll.length := by
                  simpa using hx'
                subst hx100
                constructor
                · have := hmono 0 100 (by omega)
                  simpa using this
                · exact le_refl _
            have hbridge : (100 * i + 100) / msAll.length =
                100 * (i + 1) / msAll.length := by
              rw [show 100 * (i + 1) = 100 * i + 100 from by ring]
            -- assemble the full trace
            have hpercs : percentsOf evs = percentsOf evs0 ++ percentsOf
                q.2 := by
              rw [← hevs, percentsOf_append, percentsOf_reload]
            have hsegch : List.Chain' (· ≤ ·) (percentsOf evs0) := by
              rw [hp]
              refine chain'_le_append
                (List.chain'_map_of_chain' _ (fun a b hab => hmono a b hab)
                  hch) (by simp) ?_
              intro x hx y hy
              obtain ⟨p, hpmem, rfl⟩ := List.mem_map.mp hx
              have hy' : y = (100 * i + 100) / msAll.length := by
                simpa using hy
              subst hy'
              exact hmono p 100 (le_of_lt (by
                have := (hbd p hpmem).2; omega))
            refine ⟨?_, ?_, ?_⟩
            · rw [hpercs]
              refine chain'_le_append hsegch ihch ?_
              intro x hx y hy
              have hxle := (hseg x hx).2
              have hyge := (ihbd y hy).1
              rw [hbridge] at hxle
              omega
            · intro x hx
              rw [hpercs] at hx
              rcases List.mem_append.mp hx with hx' | hx'
              · obtain ⟨hlo, hhi⟩ := hseg x hx'
                refine ⟨hlo, ?_⟩
                calc x ≤ (100 * i + 100) / msAll.length := hhi
                  _ ≤ 100 := hup 100 (le_refl _)
              · obtain ⟨hlo, hhi⟩ := ihbd x hx'
                refine ⟨?_, hhi⟩
                calc 100 * i / msAll.length ≤
                    100 * (i + 1) / msAll.length :=
                      Nat.div_le_div_right (Nat.mul_le_mul_left _ (by omega))
                  _ ≤ x := hlo
            · rw [hpercs, List.getLast?_append, ihlast]
              rfl

/-- C7 (confirmed): across a single `RefFind` operation that runs to
completion (it returns a nonzero total, so neither a lookup failure, nor a
read failure, nor the zero-cumulative early return cut it short), the
sequence of overall progress percentages in the trace is nondecreasing and
ends at exactly 100. -/
theorem refc7_progress_monotone (env : Env U Info) (cb : CBREF U Info)
    (Address Size : Nat) (u : U) (Silent : Bool) (Name : String)
    (t : REFFINDTYPE) (total : Nat) (evs : List Event)
    (h : RefFind env cb Address Size u Silent Name t = some (total, evs))
    (hpos : 0 < total) :
    List.Chain' (· ≤ ·) (percentsOf evs) ∧
    (percentsOf evs).getLast? = some 100 := by
  have h1 : percentsOf [Event.reloadData] = [] := rfl
  have h2 : percentsOf [Event.overallProgress 100, Event.reloadData] =
    [100] := rfl
  have h3 : percentsOf [Event.reloadData, Event.overallProgress 100,
    Event.reloadData] = [100] := rfl
  cases t with
  | CURRENT_REGION =>
    simp only [RefFind] at h
    by_cases hreg : (env.memFindBaseAddr Address).1 = 0 ∨
        (env.memFindBaseAddr Address).2 = 0
    · rw [if_pos hreg] at h
      simp only [Option.some.injEq, Prod.mk.injEq] at h
      omega
    · rw [if_neg hreg] at h
      cases hr : RefFindInRange env cb Silent
          (regionScanRange Address Size (env.memFindBaseAddr Address).1
            (env.memFindBaseAddr Address).2).1
          (regionScanRange Address Size (env.memFindBaseAddr Address).1
            (env.memFindBaseAddr Address).2).2 true regionSink
          ⟨0, u, regionFullName env Name
            (regionScanRange Address Size (env.memFindBaseAddr Address).1
              (env.memFindBaseAddr Address).2).1⟩ with
      | none => rw [hr] at h; cases h
      | some r =>
        obtain ⟨ret, stf, evs0⟩ := r
        simp only [hr] at h
        by_cases hret : ret = 0
        · rw [if_pos hret] at h
          simp only [Option.some.injEq, Prod.mk.injEq] at h
          omega
        · rw [if_neg hret] at h
          simp only [Option.some.injEq, Prod.mk.injEq] at h
          obtain ⟨-, hevs⟩ := h
          cases hmem : env.memRead
              (regionScanRange Address Size (env.memFindBaseAddr Address).1
                (env.memFindBaseAddr Address).2).1
              (regionScanRange Address Size (env.memFindBaseAddr Address).1
                (env.memFindBaseAddr Address).2).2 with
          | none =>
            simp only [RefFindInRange, hmem, Option.some.injEq,
              Prod.mk.injEq] at hr
            exact absurd hr.1.symm hret
          | some data =>
            have hc := percents_id_sink_chain env cb Silent _ _ true
              regionSink percentsOf_regionSink _ data hmem ret stf evs0 hr
            have hpe : percentsOf evs = percentsOf evs0 ++ [100] := by
              rw [← hevs, percentsOf_append, percentsOf_append, h1, h2,
                List.append_nil]
            rw [hpe]
            exact hc
  | CURRENT_MODULE =>
    simp only [RefFind] at h
    cases hmi : env.modInfoFromAddr Address with
    | none =>
      simp only [hmi, Option.some.injEq, Prod.mk.injEq] at h
      omega
    | some minfo =>
      simp only [hmi] at h
      cases hr : RefFindInRange env cb Silent minfo.1 minfo.2 true
          moduleSink ⟨0, u, moduleFullName env Name minfo.1⟩ with
      | none => rw [hr] at h; cases h
      | some r =>
        obtain ⟨ret, stf, evs0⟩ := r
        simp only [hr] at h
        by_cases hret : ret = 0
        · rw [if_pos hret] at h
          simp only [Option.some.injEq, Prod.mk.injEq] at h
          omega
        · rw [if_neg hret] at h
          simp only [Option.some.injEq, Prod.mk.injEq] at h
          obtain ⟨-, hevs⟩ := h
          cases hmem : env.memRead minfo.1 minfo.2 with
          | none =>
            simp only [RefFindInRange, hmem, Option.some.injEq,
              Prod.mk.injEq] at hr
            exact absurd hr.1.symm hret
          | some data =>
            have hc := percents_id_sink_chain env cb Silent minfo.1 minfo.2
              true moduleSink percentsOf_moduleSink _ data hmem ret stf evs0
              hr
            have hpe : percentsOf evs = percentsOf evs0 ++ [100] := by
              rw [← hevs, percentsOf_append, h3]
            rw [hpe]
            exact hc
  | ALL_MODULES =>
    simp only [RefFind] at h
    by_cases hlen : env.modGetList.length = 0
    · rw [if_pos hlen] at h
      simp only [Option.some.injEq, Prod.mk.injEq] at h
      omega
    · rw [if_neg hlen] at h
      obtain ⟨hch, -, hlast⟩ := allModLoop_mono env cb Silent
        env.modGetList env.modGetList 0
        ⟨0, u, "All Modules (" ++ Name ++ ")"⟩ total evs (by simp) h hpos
      exact ⟨hch, hlast⟩

theorem refc7_witness :
    List.Chain' (· ≤ ·) (percentsOf [Event.memRead 4096 1,
      Event.taskProgress 0 "Region Search", Event.overallProgress 0,
      Event.taskProgress 100 "Region Search", Event.overallProgress 100,
      Event.reloadData, Event.overallProgress 100, Event.reloadData]) ∧
    (percentsOf [Event.memRead 4096 1,
      Event.taskProgress 0 "Region Search", Event.overallProgress 0,
      Event.taskProgress 100 "Region Search", Event.overallProgress 100,
      Event.reloadData, Event.overallProgress 100,
      Event.reloadData]).getLast? = some 100 :=
  refc7_progress_monotone env1 cbTrue 0x1000 0 () false "N"
    REFFINDTYPE.CURRENT_REGION 2 _ (by decide) (by decide)
